import Mathlib

set_option maxHeartbeats 1000000

/- Shallow embedding of src/netdata-forwarder.py: a forwarder that pulls
   pre-aggregated chart data from a Netdata parent node and republishes it,
   grouped by aggregation type, to a ClickHouse proxy and a GraphQL proxy. -/

/-- Values occurring in parsed JSON payloads and in metric dictionaries.
Finite floats are modelled as rationals; the non-finite floats positive
infinity, negative infinity and nan — which Python's json module and
float() both produce — are explicit values. -/
inductive PyVal where
  | pnull : PyVal
  | pnum : Rat → PyVal
  | pinf : PyVal
  | pneginf : PyVal
  | pnan : PyVal
  | pstr : String → PyVal
  deriving DecidableEq

/-- Whether a value is a Python float: a finite rational, an infinity, or
nan. -/
def PyVal.isFloatVal : PyVal → Bool
  | PyVal.pnum _ => true
  | PyVal.pinf => true
  | PyVal.pneginf => true
  | PyVal.pnan => true
  | _ => false

/-- Whether a value is a finite float. -/
def PyVal.isFiniteFloat : PyVal → Bool
  | PyVal.pnum _ => true
  | _ => false

/-- A Python metric dict, as an insertion-ordered association list. -/
abbrev Metric := List (String × PyVal)

/-- Module constant NETDATA_URL of the source. -/
def NETDATA_URL : String := "http://localhost:19999"

/-- Module constant PROXY_URL of the source. -/
def PROXY_URL : String := "http://localhost:8080"

/-- Module constant GRAPHQL_PROXY_URL of the source. -/
def GRAPHQL_PROXY_URL : String := "http://localhost:8090"

/-- Module constant CHARTS_TO_COLLECT of the source. -/
def CHARTS_TO_COLLECT : List String := ["system.cpu", "disk_space./"]

/-- Module constant AGGREGATION_TYPES of the source. -/
def AGGREGATION_TYPES : List String := ["max", "average", "median"]

/-- Digit list to natural number. -/
def digitsToNat (ds : List Char) : Nat :=
  ds.foldl (fun a c => 10 * a + (c.toNat - 48)) 0

/-- Continuation of a Python digit part after its first digit: further
digits, with single underscores allowed only between two digits, as in
the numeric-literal grammar float() accepts. Returns the collected digits
and the unconsumed remainder. -/
def digitGroupTail : List Char → List Char × List Char
  | [] => ([], [])
  | ['_'] => ([], ['_'])
  | '_' :: d :: rest2 =>
    if d.isDigit then
      let r := digitGroupTail rest2
      (d :: r.1, r.2)
    else ([], '_' :: d :: rest2)
  | c :: rest =>
    if c.isDigit then
      let r := digitGroupTail rest
      (c :: r.1, r.2)
    else ([], c :: rest)

/-- A Python digit part: a digit followed by digits with optional single
underscores between digits. Returns the digits and the remainder. -/
def takeDigitPart (cs : List Char) : List Char × List Char :=
  match cs with
  | c :: rest =>
    if c.isDigit then
      let r := digitGroupTail rest
      (c :: r.1, r.2)
    else ([], c :: rest)
  | [] => ([], [])

/-- Exponent part of a Python float literal: a digit part after an
optional sign, consuming the whole remainder. -/
def parseExpDigits (mant : Rat) (pos : Bool) (ds : List Char) : Option Rat :=
  let dp := takeDigitPart ds
  if dp.1 ≠ [] ∧ dp.2 = [] then
    some (if pos then mant * 10 ^ digitsToNat dp.1 else mant / 10 ^ digitsToNat dp.1)
  else none

/-- Optional sign of the exponent of a Python float literal. -/
def parseSignedExp (mant : Rat) (cs : List Char) : Option Rat :=
  match cs with
  | '+' :: rest => parseExpDigits mant true rest
  | '-' :: rest => parseExpDigits mant false rest
  | _ => parseExpDigits mant true cs

/-- Optional exponent marker of a Python float literal. -/
def parseExpTail (mant : Rat) : List Char → Option Rat
  | [] => some mant
  | 'e' :: rest => parseSignedExp mant rest
  | 'E' :: rest => parseSignedExp mant rest
  | _ => none

/-- Mantissa of a Python float literal: an integer digit part with an
optional fractional digit part; at least one digit overall. -/
def parseMantissa (cs : List Char) : Option (Rat × List Char) :=
  let intPart := takeDigitPart cs
  match intPart.2 with
  | '.' :: rest2 =>
    let fracPart := takeDigitPart rest2
    if intPart.1 = [] ∧ fracPart.1 = [] then none
    else some ((digitsToNat intPart.1 : Rat)
      + (digitsToNat fracPart.1 : Rat) / 10 ^ fracPart.1.length, fracPart.2)
  | _ => if intPart.1 = [] then none else some ((digitsToNat intPart.1 : Rat), intPart.2)

/-- Surrounding whitespace stripped from a string, as a character list. -/
def pyStrip (s : String) : List Char :=
  ((s.toList.dropWhile Char.isWhitespace).reverse.dropWhile Char.isWhitespace).reverse

/-- Python float() applied to a string: surrounding whitespace is
stripped and matching is case-insensitive; an optional sign precedes
either one of the tokens inf, infinity and nan — yielding the non-finite
floats — or a decimal literal with optional fraction and exponent whose
digit parts may use underscore grouping. -/
def parsePyFloatString (s : String) : Option PyVal :=
  let cs := (pyStrip s).map Char.toLower
  let signAndRest : Bool × List Char :=
    match cs with
    | '-' :: rest => (true, rest)
    | '+' :: rest => (false, rest)
    | _ => (false, cs)
  match signAndRest.2 with
  | 'i' :: 'n' :: 'f' :: rest =>
    if rest = [] ∨ rest = ['i', 'n', 'i', 't', 'y'] then
      some (if signAndRest.1 then PyVal.pneginf else PyVal.pinf)
    else none
  | 'n' :: 'a' :: 'n' :: rest =>
    if rest = [] then some PyVal.pnan else none
  | rest =>
    match parseMantissa rest with
    | none => none
    | some (m, rest2) =>
      (parseExpTail m rest2).map
        (fun r => PyVal.pnum (if signAndRest.1 then -r else r))

/-- Python float() applied to a JSON value: floats (finite or not) pass
through, strings are parsed, null (and anything else) raises and yields
no value. -/
def pyFloat : PyVal → Option PyVal
  | PyVal.pnull => none
  | PyVal.pnum q => some (PyVal.pnum q)
  | PyVal.pinf => some PyVal.pinf
  | PyVal.pneginf => some PyVal.pneginf
  | PyVal.pnan => some PyVal.pnan
  | PyVal.pstr s => parsePyFloatString s

/-- Whether the first list starts with the second. -/
def charsStartWith : List Char → List Char → Bool
  | _, [] => true
  | [], _ :: _ => false
  | c :: cs, p :: ps => c == p && charsStartWith cs ps

/-- Whether the second list occurs contiguously inside the first. -/
def charsContain : List Char → List Char → Bool
  | [], pat => pat.isEmpty
  | c :: cs, pat => charsStartWith (c :: cs) pat || charsContain cs pat

/-- Substring test, as Python's `in` operator on strings. -/
def strContains (s pat : String) : Bool :=
  charsContain s.toList pat.toList

/-- Python str.lower, per character. -/
def lowerCase (s : String) : String :=
  (s.toList.map Char.toLower).asString

/-- NetdataForwarder._get_chart_units: best-effort units from substring
matches on the lowercased chart identifier. -/
def get_chart_units (chart_id : String) : String :=
  if strContains (lowerCase chart_id) "cpu" then "percentage"
  else if strContains (lowerCase chart_id) "disk_space" then "GB"
  else if strContains (lowerCase chart_id) "memory" then "MB"
  else ""

/-- Python str.title over a character list: an alphabetic character is
uppercased after a non-alphabetic boundary and lowercased otherwise. -/
def pyTitleChars : Bool → List Char → List Char
  | _, [] => []
  | prevAlpha, c :: cs =>
    if c.isAlpha then
      (if prevAlpha then c.toLower else c.toUpper) :: pyTitleChars true cs
    else
      c :: pyTitleChars false cs

/-- Python str.title. -/
def pyTitle (s : String) : String :=
  (pyTitleChars false s.toList).asString

/-- chart_id.replace with spaces for underscores, then title-cased:
the chart_name field of a metric. -/
def chartNameOf (chart_id : String) : String :=
  pyTitle ((chart_id.toList.map (fun c => if c = '_' then ' ' else c)).asString)

/-- chart_id.split on the first dot when a dot occurs, else the empty
string: the family field of a metric. -/
def familyOf (chart_id : String) : String :=
  if chart_id.toList.contains '.' then
    (chart_id.toList.takeWhile (fun c => c != '.')).asString
  else ""

/-- The metric dict built in NetdataForwarder.parse_chart_response, in the
source's key insertion order. -/
def mkMetric (timestamp : PyVal) (hostname chart_id dim : String) (value : PyVal)
    (aggregation_type : String) : Metric :=
  [("timestamp", timestamp),
   ("hostname", PyVal.pstr hostname),
   ("chart_id", PyVal.pstr chart_id),
   ("chart_name", PyVal.pstr (chartNameOf chart_id)),
   ("id", PyVal.pstr dim),
   ("value", value),
   ("units", PyVal.pstr (get_chart_units chart_id)),
   ("family", PyVal.pstr (familyOf chart_id)),
   ("context", PyVal.pstr chart_id),
   ("chart_type", PyVal.pstr "line"),
   ("_aggregation_type", PyVal.pstr aggregation_type)]

/-- One step of the per-dimension loop of parse_chart_response: a record is
produced when the indexed value exists, is not null, and float() succeeds. -/
def dimRecord (values : List PyVal) (timestamp : PyVal)
    (hostname chart_id aggregation_type : String) (i : Nat) (dim : String) :
    Option Metric :=
  match values[i]? with
  | none => none
  | some v =>
    if v = PyVal.pnull then none
    else
      match pyFloat v with
      | some fv => some (mkMetric timestamp hostname chart_id dim fv aggregation_type)
      | none => none

/-- The enumerate loop over dimensions in parse_chart_response. -/
def buildMetrics (values : List PyVal) (timestamp : PyVal)
    (hostname chart_id aggregation_type : String) : Nat → List String → List Metric
  | _, [] => []
  | i, dim :: rest =>
    match dimRecord values timestamp hostname chart_id aggregation_type i dim with
    | some m => m :: buildMetrics values timestamp hostname chart_id aggregation_type (i + 1) rest
    | none => buildMetrics values timestamp hostname chart_id aggregation_type (i + 1) rest

/-- The /api/v1/data response shape consumed by the forwarder: a labels
list (time plus one label per dimension) and rows of values. -/
structure RawChartPayload where
  labels : List String
  data : List (List PyVal)
  deriving DecidableEq

/-- NetdataForwarder.parse_chart_response: validates labels and data, then
emits one metric per dimension with a usable value from the first row.
`now` stands for int(time.time()), the timestamp fallback. -/
def parse_chart_response (chart_data : RawChartPayload)
    (hostname chart_id aggregation_type : String) (now : Int) : List Metric :=
  if chart_data.labels = [] ∨ chart_data.data = [] then []
  else if chart_data.labels.length < 2 then []
  else
    let dimensions := chart_data.labels.drop 1
    let row := chart_data.data.headD []
    if 1 < row.length then
      let timestamp := row.headD (PyVal.pnum (now : Rat))
      let values := row.drop 1
      buildMetrics values timestamp hostname chart_id aggregation_type 0 dimensions
    else []

/-- Whether the per-dimension loop emits a record at index i: value
present, not null, and float-coercible. -/
def goodDimAt (values : List PyVal) (i : Nat) : Bool :=
  match values[i]? with
  | none => false
  | some v => v != PyVal.pnull && (pyFloat v).isSome

/-- An HTTP GET request as the source builds it: a URL and query params. -/
structure HttpRequest where
  url : String
  params : List (String × String)
  deriving DecidableEq

/-- An HTTP response: status code and parsed JSON body. -/
structure HttpResponse where
  status : Nat
  body : RawChartPayload
  deriving DecidableEq

/-- The single host-scoped request built in NetdataForwarder.get_chart_data:
base/host/{hostname}/api/v1/data with the chart, group, after, points and
format query parameters (TIME_WINDOW is -60, points is 1). -/
def chartDataRequest (base_netdata_url hostname chart_id aggregation_type : String) :
    HttpRequest :=
  { url := base_netdata_url ++ "/host/" ++ hostname ++ "/api/v1/data",
    params := [("chart", chart_id), ("group", aggregation_type),
               ("after", "-60"), ("points", "1"), ("format", "json")] }

/-- The self-scoped data URL used by get_chart_data_direct, for comparison:
base/api/v1/data with no host path segment. -/
def selfScopedDataUrl (netdata_url : String) : String :=
  netdata_url ++ "/api/v1/data"

/-- NetdataForwarder.get_chart_data over an HTTP oracle: issues exactly the
host-scoped request and returns its body on status 200, None otherwise.
The second component is the trace of requests issued by the call. -/
def get_chart_data (http : HttpRequest → HttpResponse)
    (hostname chart_id aggregation_type base_netdata_url : String) :
    Option RawChartPayload × List HttpRequest :=
  let req := chartDataRequest base_netdata_url hostname chart_id aggregation_type
  let resp := http req
  (if resp.status = 200 then some resp.body else none, [req])

/-- The mirrored_hosts list of the /api/v1/info response. -/
structure NetdataInfo where
  mirrored_hosts : List String
  deriving DecidableEq

/-- NetdataForwarder.get_mirrored_host_metrics: returns no metrics when the
info call failed or when the mirrored-hosts list is empty, else collects
parse_chart_response results per host, chart and aggregation type.
`fetchChart hostname chart_id agg` stands for get_chart_data's result. -/
def get_mirrored_host_metrics (info : Option NetdataInfo)
    (fetchChart : String → String → String → Option RawChartPayload)
    (now : Int) : List Metric :=
  match info with
  | none => []
  | some i =>
    if i.mirrored_hosts = [] then []
    else
      i.mirrored_hosts.flatMap (fun hostname =>
        CHARTS_TO_COLLECT.flatMap (fun chart_id =>
          AGGREGATION_TYPES.flatMap (fun aggregation_type =>
            match fetchChart hostname chart_id aggregation_type with
            | some chart_data =>
                parse_chart_response chart_data hostname chart_id aggregation_type now
            | none => [])))

/-- Endpoint selection of NetdataForwarder.send_to_proxy: recognized kinds
map to dedicated paths, anything else falls back to the bare proxy URL. -/
def proxyEndpoint (aggregation_type : String) : String :=
  if aggregation_type = "max" then PROXY_URL ++ "/max"
  else if aggregation_type = "average" then PROXY_URL ++ "/avg"
  else if aggregation_type = "median" then PROXY_URL ++ "/median"
  else PROXY_URL

/-- Endpoint selection of NetdataForwarder.send_to_graphql_proxy. -/
def graphqlEndpoint (aggregation_type : String) : String :=
  if aggregation_type = "max" then GRAPHQL_PROXY_URL ++ "/max"
  else if aggregation_type = "average" then GRAPHQL_PROXY_URL ++ "/avg"
  else if aggregation_type = "median" then GRAPHQL_PROXY_URL ++ "/median"
  else GRAPHQL_PROXY_URL

/-- NetdataForwarder.send_to_proxy over a POST oracle: empty batches are
refused, otherwise one POST is issued to the selected endpoint and its
success is returned. The second component is the trace of posts issued. -/
def send_to_proxy (post : String → List Metric → Bool)
    (metrics : List Metric) (aggregation_type : String) :
    Bool × List (String × List Metric) :=
  if metrics = [] then (false, [])
  else (post (proxyEndpoint aggregation_type) metrics,
        [(proxyEndpoint aggregation_type, metrics)])

/-- NetdataForwarder.send_to_graphql_proxy over a POST oracle. -/
def send_to_graphql_proxy (post : String → List Metric → Bool)
    (metrics : List Metric) (aggregation_type : String) :
    Bool × List (String × List Metric) :=
  if metrics = [] then (false, [])
  else (post (graphqlEndpoint aggregation_type) metrics,
        [(graphqlEndpoint aggregation_type, metrics)])

/-- The dict comprehension of run_once that removes the internal
aggregation marker from a metric before sending. -/
def cleanMetric (m : Metric) : Metric :=
  m.filter (fun kv => kv.1 != "_aggregation_type")

/-- The per-aggregation filter of run_once: metrics whose
_aggregation_type entry equals the given kind. -/
def typeMetrics (data : List Metric) (aggregation_type : String) : List Metric :=
  data.filter (fun m =>
    decide (List.lookup "_aggregation_type" m = some (PyVal.pstr aggregation_type)))

/-- The aggregation-type loop of run_once: per kind, the non-empty
filtered batch is cleaned and sent to both proxies; returns the ClickHouse
count, the GraphQL count, and the trace of posts issued. -/
def runAggs (data : List Metric) (post : String → List Metric → Bool) :
    List String → Nat × Nat × List (String × List Metric)
  | [] => (0, 0, [])
  | aggregation_type :: rest =>
    let tm := typeMetrics data aggregation_type
    let cur :=
      if tm = [] then ((0 : Nat), (0 : Nat), ([] : List (String × List Metric)))
      else
        let clean := tm.map cleanMetric
        let ch := send_to_proxy post clean aggregation_type
        let gq := send_to_graphql_proxy post clean aggregation_type
        ((if ch.1 then clean.length else 0), (if gq.1 then clean.length else 0),
         ch.2 ++ gq.2)
    let restResult := runAggs data post rest
    (cur.1 + restResult.1, cur.2.1 + restResult.2.1, cur.2.2 ++ restResult.2.2)

/-- NetdataForwarder.run_once over collected metrics and a POST oracle:
False when nothing was collected, else success iff any send delivered
metrics; the second component is the trace of posts issued. -/
def run_once (data : List Metric) (post : String → List Metric → Bool) :
    Bool × List (String × List Metric) :=
  if data = [] then (false, [])
  else
    let r := runAggs data post AGGREGATION_TYPES
    (decide (0 < r.1 + r.2.1), r.2.2)

/-- The --once branch of main: exit status 0 on run_once success, 1
otherwise. -/
def main_once_exit (data : List Metric) (post : String → List Metric → Bool) : Nat :=
  if (run_once data post).1 then 0 else 1

/-- Modelled from the spec: the repository source contains no
VolumeLabelDeriver — only its specification (section 4.4) describes it.
This strips a literal disk_space. marker from a candidate string. -/
def stripDiskMarker (s : String) : String :=
  match s.toList with
  | 'd' :: 'i' :: 's' :: 'k' :: '_' :: 's' :: 'p' :: 'a' :: 'c' :: 'e' :: '.' :: rest =>
      rest.asString
  | _ => s

/-- Modelled from the spec: candidate normalization of VolumeLabelDeriver.
After stripping the disk_space. marker, a remainder that is exactly one of
the root markers becomes the root marker slash; a leading dot-slash drops
the dot; a leading slash is kept verbatim; a leading underscore is expanded
by replacing remaining underscores with path separators behind a slash; a
leading dot is treated the same way without expansion; anything else is
returned unchanged. -/
def normalizeCandidate (s : String) : String :=
  let t := stripDiskMarker s
  if t = "/" ∨ t = "./" ∨ t = "_" ∨ t = "._" then "/"
  else
    match t.toList with
    | '.' :: '/' :: rest => ('/' :: rest).asString
    | '/' :: _ => t
    | '_' :: rest => ('/' :: rest.map (fun c => if c = '_' then '/' else c)).asString
    | '.' :: rest => ('/' :: rest).asString
    | _ => t

/-- Modelled from the spec: final sanitization of VolumeLabelDeriver. The
root marker becomes the literal root; leading slashes are stripped; an
empty remainder also becomes root. -/
def sanitizeLabel (s : String) : String :=
  if s = "/" then "root"
  else
    let r := (s.toList.dropWhile (fun c => c == '/')).asString
    if r = "" then "root" else r

/-- Modelled from the spec: VolumeLabelDeriver. Candidates gathered from
catalog metadata (in priority order) are followed by the chart identifier
as a last resort; the first candidate that normalizes to a non-empty
string wins and is sanitized. -/
def deriveVolumeLabel (chartId : String) (metadata : List String) : String :=
  let cands := metadata ++ [chartId]
  sanitizeLabel (((cands.map normalizeCandidate).filter (fun s => s != "")).headD "")

/-- A concrete payload used by concrete instantiations below: one data row
with a timestamp and one numeric dimension value. -/
def samplePayload : RawChartPayload :=
  { labels := ["time", "user"],
    data := [[PyVal.pnum 1700000000, PyVal.pnum 42]] }

/-- A concrete in-memory metric carrying the aggregation marker. -/
def sampleMetric : Metric :=
  mkMetric (PyVal.pnum 1700000000) "web1" "system.cpu" "user" (PyVal.pnum 42) "average"

/-- A concrete payload with a numeric value, a null, a non-coercible
string and an underscore-grouped digit string as dimension values. -/
def mixedPayload : RawChartPayload :=
  { labels := ["time", "user", "sys", "bad", "grouped"],
    data := [[PyVal.pnum 1700000000, PyVal.pnum 42, PyVal.pnull,
              PyVal.pstr "oops", PyVal.pstr "1_000"]] }

/-- A concrete payload whose single dimension value is the string inf,
which Python float() coerces to a non-finite float. -/
def infPayload : RawChartPayload :=
  { labels := ["time", "d1"],
    data := [[PyVal.pnum 1700000000, PyVal.pstr "inf"]] }

/- Helper lemmas -/

theorem charsStartWith_iff : ∀ (l p : List Char), charsStartWith l p = true ↔ p <+: l
  | _, [] => by simp [charsStartWith]
  | [], _ :: _ => by simp [charsStartWith]
  | c :: cs, p :: ps => by
    rw [charsStartWith, Bool.and_eq_true, beq_iff_eq, charsStartWith_iff cs ps,
      List.cons_prefix_cons]
    constructor
    · rintro ⟨rfl, h⟩; exact ⟨rfl, h⟩
    · rintro ⟨rfl, h⟩; exact ⟨rfl, h⟩

theorem charsContain_iff : ∀ (l p : List Char), charsContain l p = true ↔ p <:+: l
  | [], p => by
    cases p <;> simp [charsContain]
  | c :: cs, p => by
    rw [charsContain, Bool.or_eq_true, charsStartWith_iff, charsContain_iff cs p]
    exact (List.infix_cons_iff).symm

/- Claim C1 -/

/-- C1 counterexample: when the host-scoped data endpoint answers 404, the
call issues exactly the one host-scoped request — no fallback request to
the self-scoped endpoint and no request carrying the host as a query
parameter — and returns no data, contrary to the claimed 404 fallback. -/
theorem c1_counterexample :
    (get_chart_data (fun _ => { status := 404, body := samplePayload })
        "web1" "system.cpu" "average" NETDATA_URL).1 = none ∧
    (get_chart_data (fun _ => { status := 404, body := samplePayload })
        "web1" "system.cpu" "average" NETDATA_URL).2 =
      [chartDataRequest NETDATA_URL "web1" "system.cpu" "average"] ∧
    (∀ r ∈ (get_chart_data (fun _ => { status := 404, body := samplePayload })
        "web1" "system.cpu" "average" NETDATA_URL).2,
      r.url ≠ selfScopedDataUrl NETDATA_URL ∧ ∀ kv ∈ r.params, kv.1 ≠ "host") := by
  refine ⟨by decide, by decide, ?_⟩
  decide

/-- C1 amended: a 404 on the host-scoped endpoint is treated like any other
non-200 status — get_chart_data returns no data after issuing exactly the
single host-scoped request; no fallback request is made and no error is
surfaced. -/
theorem c1_no_fallback (http : HttpRequest → HttpResponse)
    (hostname chart_id aggregation_type base_netdata_url : String)
    (h : (http (chartDataRequest base_netdata_url hostname chart_id aggregation_type)).status = 404) :
    get_chart_data http hostname chart_id aggregation_type base_netdata_url =
      (none, [chartDataRequest base_netdata_url hostname chart_id aggregation_type]) := by
  simp [get_chart_data, h]

/-- C1 amended, witnessed at a concrete 404 oracle. -/
theorem c1_no_fallback_witness :
    get_chart_data (fun _ => { status := 404, body := samplePayload })
        "web1" "system.cpu" "average" NETDATA_URL =
      (none, [chartDataRequest NETDATA_URL "web1" "system.cpu" "average"]) :=
  c1_no_fallback (fun _ => { status := 404, body := samplePayload })
    "web1" "system.cpu" "average" NETDATA_URL rfl

/- Claim C4 -/

/-- C4: a payload with fewer than two labels, or with no data rows, yields
zero metric records from the normalizer. -/
theorem c4_invalid_payload (p : RawChartPayload)
    (hostname chart_id aggregation_type : String) (now : Int)
    (hp : p.labels.length < 2 ∨ p.data = []) :
    parse_chart_response p hostname chart_id aggregation_type now = [] := by
  unfold parse_chart_response
  rcases hp with hl | hd
  · by_cases h1 : p.labels = [] ∨ p.data = []
    · simp [h1]
    · simp [h1, hl]
  · simp [hd]

/-- C4 witnessed at a concrete one-label payload. -/
theorem c4_invalid_payload_witness :
    parse_chart_response { labels := ["time"], data := [[PyVal.pnum 0, PyVal.pnum 1]] }
      "web1" "system.cpu" "average" 0 = [] :=
  c4_invalid_payload _ "web1" "system.cpu" "average" 0 (Or.inl (by decide))

/- Claim C5 -/

/-- C5 counterexample: a batch with the unrecognized aggregation kind p99
is still sent — one POST is issued, to the bare proxy URL — and the send
reports success, contrary to the claimed hard per-batch failure. -/
theorem c5_counterexample :
    (send_to_proxy (fun _ _ => true) [sampleMetric] "p99").2 =
      [(PROXY_URL, [sampleMetric])] ∧
    (send_to_proxy (fun _ _ => true) [sampleMetric] "p99").1 = true := by
  constructor
  · decide
  · decide

/-- C5 amended: at routing time an unrecognized aggregation kind is not a
failure — the non-empty batch is posted to the default (bare) ClickHouse
proxy URL, which the proxy treats as the average endpoint, and the send's
outcome is whatever that POST returns. -/
theorem c5_default_endpoint (post : String → List Metric → Bool)
    (metrics : List Metric) (aggregation_type : String)
    (hm : metrics ≠ []) (ha : aggregation_type ∉ AGGREGATION_TYPES) :
    send_to_proxy post metrics aggregation_type =
      (post PROXY_URL metrics, [(PROXY_URL, metrics)]) := by
  have h1 : aggregation_type ≠ "max" := by
    intro h; exact ha (by simp [AGGREGATION_TYPES, h])
  have h2 : aggregation_type ≠ "average" := by
    intro h; exact ha (by simp [AGGREGATION_TYPES, h])
  have h3 : aggregation_type ≠ "median" := by
    intro h; exact ha (by simp [AGGREGATION_TYPES, h])
  simp [send_to_proxy, proxyEndpoint, hm, h1, h2, h3]

/-- C5 amended, witnessed at the unrecognized kind p99. -/
theorem c5_default_endpoint_witness :
    send_to_proxy (fun _ _ => false) [sampleMetric] "p99" =
      ((fun (_ : String) (_ : List Metric) => false) PROXY_URL [sampleMetric],
       [(PROXY_URL, [sampleMetric])]) :=
  c5_default_endpoint (fun _ _ => false) [sampleMetric] "p99" (by decide) (by decide)

/- Claim C6 -/

/-- C6 counterexample: with an info response whose mirrored-hosts list is
empty, the collector returns zero metrics even though every fetch would
succeed — no synthetic self target is polled — while the same fetch oracle
yields metrics as soon as one mirrored host is reported. -/
theorem c6_counterexample :
    get_mirrored_host_metrics (some { mirrored_hosts := [] })
        (fun _ _ _ => some samplePayload) 0 = [] ∧
    get_mirrored_host_metrics (some { mirrored_hosts := ["web1"] })
        (fun _ _ _ => some samplePayload) 0 ≠ [] := by
  constructor
  · decide
  · decide

/-- C6 amended: when the info call reports an empty mirrored-hosts list,
the collector returns no metrics at all — the cycle proceeds with zero
target hosts and no synthetic self target is created. -/
theorem c6_empty_hosts (info : NetdataInfo)
    (fetchChart : String → String → String → Option RawChartPayload)
    (now : Int) (h : info.mirrored_hosts = []) :
    get_mirrored_host_metrics (some info) fetchChart now = [] := by
  simp [get_mirrored_host_metrics, h]

/-- C6 amended, witnessed at a concrete empty info. -/
theorem c6_empty_hosts_witness :
    get_mirrored_host_metrics (some { mirrored_hosts := [] })
      (fun _ _ _ => some samplePayload) 0 = [] :=
  c6_empty_hosts { mirrored_hosts := [] } (fun _ _ _ => some samplePayload) 0 rfl

/- Claim C8 -/

/-- C8 counterexample: the identifier disk.io contains the substring disk,
yet its units are the empty string rather than GB — the code matches on
disk_space, not on disk. -/
theorem c8_counterexample :
    "disk".toList <:+: "disk.io".toList ∧
    get_chart_units "disk.io" = "" ∧ get_chart_units "disk.io" ≠ "GB" := by
  refine ⟨?_, by decide, by decide⟩
  rw [← charsContain_iff]
  decide

/-- C8 amended: units are chosen by substring match on the lowercased
identifier, checked in order — cpu gives percentage, else disk_space (not
disk) gives GB, else memory gives MB, else the empty string. -/
theorem c8_units (chart_id : String) :
    ("cpu".toList <:+: (lowerCase chart_id).toList →
        get_chart_units chart_id = "percentage") ∧
    (¬ "cpu".toList <:+: (lowerCase chart_id).toList →
      "disk_space".toList <:+: (lowerCase chart_id).toList →
        get_chart_units chart_id = "GB") ∧
    (¬ "cpu".toList <:+: (lowerCase chart_id).toList →
      ¬ "disk_space".toList <:+: (lowerCase chart_id).toList →
      "memory".toList <:+: (lowerCase chart_id).toList →
        get_chart_units chart_id = "MB") ∧
    (¬ "cpu".toList <:+: (lowerCase chart_id).toList →
      ¬ "disk_space".toList <:+: (lowerCase chart_id).toList →
      ¬ "memory".toList <:+: (lowerCase chart_id).toList →
        get_chart_units chart_id = "") := by
  unfold get_chart_units
  simp only [strContains]
  refine ⟨fun h1 => ?_, fun h1 h2 => ?_, fun h1 h2 h3 => ?_, fun h1 h2 h3 => ?_⟩
  · rw [if_pos ((charsContain_iff _ _).mpr h1)]
  · rw [if_neg, if_pos ((charsContain_iff _ _).mpr h2)]
    rw [charsContain_iff]; exact h1
  · rw [if_neg, if_neg, if_pos ((charsContain_iff _ _).mpr h3)]
    · rw [charsContain_iff]; exact h2
    · rw [charsContain_iff]; exact h1
  · rw [if_neg, if_neg, if_neg]
    · rw [charsContain_iff]; exact h3
    · rw [charsContain_iff]; exact h2
    · rw [charsContain_iff]; exact h1

/-- C8 amended, witnessed at disk_space./ which yields GB. -/
theorem c8_units_witness : get_chart_units "disk_space./" = "GB" :=
  (c8_units "disk_space./").2.1
    (by rw [← charsContain_iff]; decide)
    (by rw [← charsContain_iff]; decide)

/- Helper lemmas for run_once -/

/-- Every entry surviving cleanMetric has a key other than the marker. -/
theorem cleanMetric_keys (m : Metric) : ∀ kv ∈ cleanMetric m, kv.1 ≠ "_aggregation_type" := by
  intro kv hkv
  have h := List.of_mem_filter hkv
  simpa using h

/-- Lookup of any key other than the marker is unchanged by cleanMetric. -/
theorem lookup_cleanMetric (k : String) (hk : k ≠ "_aggregation_type") (m : Metric) :
    List.lookup k (cleanMetric m) = List.lookup k m := by
  induction m with
  | nil => rfl
  | cons kv t ih =>
    obtain ⟨a, b⟩ := kv
    by_cases hab : a = "_aggregation_type"
    · subst hab
      have hka : (k == "_aggregation_type") = false := beq_eq_false_iff_ne.mpr hk
      simp [cleanMetric, List.filter_cons, List.lookup, hka] at ih ⊢
      exact ih
    · have hh : ((a, b).1 != "_aggregation_type") = true := by simpa using hab
      rw [cleanMetric, List.filter_cons, if_pos hh]
      cases hka : k == a <;> simp [List.lookup, hka]
      exact ih

/-- The counters of the aggregation loop are positive exactly when some
issued post succeeded. -/
theorem runAggs_pos_iff (data : List Metric) (post : String → List Metric → Bool) :
    ∀ aggs : List String,
      (0 < (runAggs data post aggs).1 + (runAggs data post aggs).2.1 ↔
        ∃ pr ∈ (runAggs data post aggs).2.2, post pr.1 pr.2 = true)
  | [] => by simp [runAggs]
  | agg :: rest => by
    have ih := runAggs_pos_iff data post rest
    by_cases htm : typeMetrics data agg = []
    · simpa [runAggs, htm] using ih
    · have hclean : (typeMetrics data agg).map cleanMetric ≠ [] := by
        simpa using htm
      have hlen : 0 < (typeMetrics data agg).length :=
        List.length_pos.mpr htm
      simp only [runAggs, htm, if_false, send_to_proxy, send_to_graphql_proxy, if_neg hclean]
      cases hp1 : post (proxyEndpoint agg) ((typeMetrics data agg).map cleanMetric) <;>
      cases hp2 : post (graphqlEndpoint agg) ((typeMetrics data agg).map cleanMetric) <;>
        simp [hp1, hp2, ih, htm] <;> omega

/-- Every batch in the aggregation loop's post trace is the cleaned
filtered batch of some aggregation kind. -/
theorem runAggs_batches (data : List Metric) (post : String → List Metric → Bool) :
    ∀ (aggs : List String), ∀ pr ∈ (runAggs data post aggs).2.2,
      ∃ agg, pr.2 = (typeMetrics data agg).map cleanMetric
  | [] => by simp [runAggs]
  | agg :: rest => by
    intro pr hpr
    by_cases htm : typeMetrics data agg = []
    · exact runAggs_batches data post rest pr (by simpa [runAggs, htm] using hpr)
    · have hclean : (typeMetrics data agg).map cleanMetric ≠ [] := by simpa using htm
      simp only [runAggs, htm, if_false, send_to_proxy, send_to_graphql_proxy,
        if_neg hclean, List.cons_append, List.nil_append, List.mem_cons] at hpr
      rcases hpr with rfl | rfl | h
      · exact ⟨agg, rfl⟩
      · exact ⟨agg, rfl⟩
      · exact runAggs_batches data post rest pr h

/-- A kind in the processed list with a non-empty batch contributes both
its ClickHouse post and its GraphQL post to the trace. -/
theorem runAggs_mem (data : List Metric) (post : String → List Metric → Bool) :
    ∀ (aggs : List String) (agg : String), agg ∈ aggs → typeMetrics data agg ≠ [] →
      (proxyEndpoint agg, (typeMetrics data agg).map cleanMetric)
          ∈ (runAggs data post aggs).2.2 ∧
      (graphqlEndpoint agg, (typeMetrics data agg).map cleanMetric)
          ∈ (runAggs data post aggs).2.2
  | [] => by intro agg h _; simp at h
  | a :: rest => by
    intro agg hmem htm
    have hclean : (typeMetrics data agg).map cleanMetric ≠ [] := by simpa using htm
    rcases List.mem_cons.mp hmem with rfl | hrest
    · refine ⟨?_, ?_⟩ <;>
        simp [runAggs, htm, send_to_proxy, send_to_graphql_proxy, hclean]
    · have ih := runAggs_mem data post rest agg hrest htm
      by_cases hta : typeMetrics data a = []
      · refine ⟨?_, ?_⟩
        · simpa [runAggs, hta] using ih.1
        · simpa [runAggs, hta] using ih.2
      · have hcleana : (typeMetrics data a).map cleanMetric ≠ [] := by simpa using hta
        refine ⟨?_, ?_⟩
        · simp only [runAggs, hta, if_false, send_to_proxy, send_to_graphql_proxy,
            if_neg hcleana, List.cons_append, List.nil_append, List.mem_cons]
          exact Or.inr (Or.inr ih.1)
        · simp only [runAggs, hta, if_false, send_to_proxy, send_to_graphql_proxy,
            if_neg hcleana, List.cons_append, List.nil_append, List.mem_cons]
          exact Or.inr (Or.inr ih.2)

/- Claim C7 -/

/-- C7: a single-shot invocation exits with status 0 exactly when at least
one batch post of the cycle succeeded, and with status 1 otherwise. -/
theorem c7_exit_code (data : List Metric) (post : String → List Metric → Bool) :
    main_once_exit data post = 0 ↔
      ∃ pr ∈ (run_once data post).2, post pr.1 pr.2 = true := by
  by_cases hd : data = []
  · simp [main_once_exit, run_once, hd]
  · have h := runAggs_pos_iff data post AGGREGATION_TYPES
    simp only [main_once_exit, run_once, if_neg hd, decide_eq_true_eq]
    split_ifs with hP
    · exact iff_of_true rfl (h.mp hP)
    · exact iff_of_false not_false (fun hex => hP (h.mpr hex))

/-- C7 witnessed at one metric and an always-succeeding POST oracle. -/
theorem c7_exit_code_witness :
    main_once_exit [sampleMetric] (fun _ _ => true) = 0 :=
  (c7_exit_code [sampleMetric] (fun _ _ => true)).mpr
    ⟨(proxyEndpoint "average", [cleanMetric sampleMetric]), by decide, rfl⟩

/- Claim C10 -/

/-- C10: a non-empty batch of a recognized aggregation kind is posted both
to the ClickHouse-proxy endpoint and to the GraphQL-proxy endpoint of that
kind, the two endpoints are distinct, and the cycle reports success
exactly when at least one post to either proxy succeeded. -/
theorem c10_dual_dispatch (data : List Metric) (post : String → List Metric → Bool)
    (aggregation_type : String) (ha : aggregation_type ∈ AGGREGATION_TYPES)
    (htm : typeMetrics data aggregation_type ≠ []) :
    (proxyEndpoint aggregation_type, (typeMetrics data aggregation_type).map cleanMetric)
        ∈ (run_once data post).2 ∧
    (graphqlEndpoint aggregation_type, (typeMetrics data aggregation_type).map cleanMetric)
        ∈ (run_once data post).2 ∧
    proxyEndpoint aggregation_type ≠ graphqlEndpoint aggregation_type ∧
    ((run_once data post).1 = true ↔
      ∃ pr ∈ (run_once data post).2, post pr.1 pr.2 = true) := by
  have hd : data ≠ [] := by
    intro h
    exact htm (by simp [typeMetrics, h])
  have hmem := runAggs_mem data post AGGREGATION_TYPES aggregation_type ha htm
  have hiff := runAggs_pos_iff data post AGGREGATION_TYPES
  refine ⟨?_, ?_, ?_, ?_⟩
  · simpa [run_once, hd] using hmem.1
  · simpa [run_once, hd] using hmem.2
  · simp only [AGGREGATION_TYPES, List.mem_cons, List.not_mem_nil, or_false] at ha
    rcases ha with rfl | rfl | rfl
    · decide
    · decide
    · decide
  · simp only [run_once, if_neg hd, decide_eq_true_eq]
    exact hiff

/-- C10 witnessed at one average-kind metric. -/
theorem c10_dual_dispatch_witness :
    (proxyEndpoint "average", (typeMetrics [sampleMetric] "average").map cleanMetric)
        ∈ (run_once [sampleMetric] (fun _ _ => true)).2 ∧
    (graphqlEndpoint "average", (typeMetrics [sampleMetric] "average").map cleanMetric)
        ∈ (run_once [sampleMetric] (fun _ _ => true)).2 ∧
    proxyEndpoint "average" ≠ graphqlEndpoint "average" ∧
    ((run_once [sampleMetric] (fun _ _ => true)).1 = true ↔
      ∃ pr ∈ (run_once [sampleMetric] (fun _ _ => true)).2,
        (fun (_ : String) (_ : List Metric) => true) pr.1 pr.2 = true) :=
  c10_dual_dispatch [sampleMetric] (fun _ _ => true) "average" (by decide) (by decide)

/- Claim C3 -/

/-- C3: every record of every batch in the outbound post trace has the
aggregation-type field absent and is the cleaned copy of an in-memory
record, with every other key's lookup unchanged. -/
theorem c3_aggregation_stripped (data : List Metric) (post : String → List Metric → Bool)
    (endpoint : String) (batch : List Metric) (rec : Metric)
    (hb : (endpoint, batch) ∈ (run_once data post).2) (hr : rec ∈ batch) :
    (∀ kv ∈ rec, kv.1 ≠ "_aggregation_type") ∧
    ∃ m ∈ data, rec = cleanMetric m ∧
      ∀ k, k ≠ "_aggregation_type" → List.lookup k rec = List.lookup k m := by
  by_cases hd : data = []
  · simp [run_once, hd] at hb
  · have hb2 : (endpoint, batch) ∈ (runAggs data post AGGREGATION_TYPES).2.2 := by
      simpa [run_once, hd] using hb
    obtain ⟨agg, hbatch⟩ := runAggs_batches data post AGGREGATION_TYPES (endpoint, batch) hb2
    replace hbatch : batch = (typeMetrics data agg).map cleanMetric := hbatch
    rw [hbatch] at hr
    obtain ⟨m, hm, rfl⟩ := List.mem_map.mp hr
    refine ⟨cleanMetric_keys m, m, List.mem_of_mem_filter hm, rfl, ?_⟩
    intro k hk
    exact lookup_cleanMetric k hk m

/-- C3 witnessed at the concrete average batch of one metric. -/
theorem c3_aggregation_stripped_witness :
    (∀ kv ∈ cleanMetric sampleMetric, kv.1 ≠ "_aggregation_type") ∧
    ∃ m ∈ ([sampleMetric] : List Metric), cleanMetric sampleMetric = cleanMetric m ∧
      ∀ k, k ≠ "_aggregation_type" →
        List.lookup k (cleanMetric sampleMetric) = List.lookup k m :=
  c3_aggregation_stripped [sampleMetric] (fun _ _ => true)
    (proxyEndpoint "average") [cleanMetric sampleMetric] (cleanMetric sampleMetric)
    (by decide) (by decide)

/- Helper lemmas for the normalizer -/

/-- The per-dimension loop produces a record exactly when the dimension
index is good: value present, non-null and float-coercible. -/
theorem dimRecord_isSome (values : List PyVal) (ts : PyVal)
    (hostname chart_id agg : String) (i : Nat) (dim : String) :
    (dimRecord values ts hostname chart_id agg i dim).isSome = goodDimAt values i := by
  unfold dimRecord goodDimAt
  cases values[i]? with
  | none => rfl
  | some v =>
    by_cases hv : v = PyVal.pnull
    · subst hv; simp
    · have hb : (v != PyVal.pnull) = true := by simpa using hv
      simp only [if_neg hv, hb, Bool.true_and]
      cases pyFloat v <;> simp

/-- Whatever float() returns is a float value: a finite rational, an
infinity or nan — never null or a string. -/
theorem pyFloat_isFloatVal (v fv : PyVal) (h : pyFloat v = some fv) :
    fv.isFloatVal = true := by
  cases v with
  | pnull => simp [pyFloat] at h
  | pnum q =>
    simp [pyFloat] at h
    subst h; rfl
  | pinf =>
    simp [pyFloat] at h
    subst h; rfl
  | pneginf =>
    simp [pyFloat] at h
    subst h; rfl
  | pnan =>
    simp [pyFloat] at h
    subst h; rfl
  | pstr s =>
    simp only [pyFloat, parsePyFloatString] at h
    split at h
    · split at h
      · rw [Option.some.injEq] at h
        subst h
        split <;> rfl
      · exact absurd h (by simp)
    · split at h
      · rw [Option.some.injEq] at h
        subst h; rfl
      · exact absurd h (by simp)
    · split at h
      · exact absurd h (by simp)
      · rw [Option.map_eq_some'] at h
        obtain ⟨r, _, hr⟩ := h
        subst hr; rfl

/-- Any record the per-dimension loop produces is a mkMetric whose value
is the float() coercion of the present, non-null source value. -/
theorem dimRecord_some (values : List PyVal) (ts : PyVal)
    (hostname chart_id agg : String) (i : Nat) (dim : String) (m : Metric)
    (h : dimRecord values ts hostname chart_id agg i dim = some m) :
    ∃ v fv, values[i]? = some v ∧ v ≠ PyVal.pnull ∧ pyFloat v = some fv ∧
      m = mkMetric ts hostname chart_id dim fv agg := by
  cases hval : values[i]? with
  | none => simp [dimRecord, hval] at h
  | some v =>
    by_cases hv : v = PyVal.pnull
    · simp [dimRecord, hval, hv] at h
    · cases hq : pyFloat v with
      | none => simp [dimRecord, hval, hv, hq] at h
      | some fv =>
        simp [dimRecord, hval, hv, hq] at h
        exact ⟨v, fv, rfl, hv, hq, h.symm⟩

/-- The loop emits exactly one record per good dimension index. -/
theorem buildMetrics_length (values : List PyVal) (ts : PyVal)
    (hostname chart_id agg : String) :
    ∀ (dims : List String) (k : Nat),
      (buildMetrics values ts hostname chart_id agg k dims).length =
        ((List.range dims.length).filter (fun j => goodDimAt values (k + j))).length
  | [], k => by simp [buildMetrics]
  | d :: ds, k => by
    have ih := buildMetrics_length values ts hostname chart_id agg ds (k + 1)
    have hg := dimRecord_isSome values ts hostname chart_id agg k d
    have hshift : ∀ j : Nat, k + 1 + j = k + (j + 1) := by omega
    rw [buildMetrics]
    cases hdr : dimRecord values ts hostname chart_id agg k d with
    | some m =>
      have hgood : goodDimAt values k = true := by rw [← hg, hdr]; rfl
      simp only [List.length_cons, ih, List.range_succ_eq_map,
        List.filter_cons, Nat.add_zero, hgood, if_true,
        List.filter_map, List.length_map, Function.comp_def, Nat.succ_eq_add_one, hshift]
    | none =>
      have hgood : goodDimAt values k = false := by rw [← hg, hdr]; rfl
      simp only [ih, List.length_cons, List.range_succ_eq_map, List.filter_cons,
        Nat.add_zero, hgood, Bool.false_eq_true, if_false, List.filter_map,
        List.length_map, Function.comp_def, Nat.succ_eq_add_one, hshift]

/-- Every record the loop emits carries a float value entry. -/
theorem buildMetrics_value (values : List PyVal) (ts : PyVal)
    (hostname chart_id agg : String) :
    ∀ (dims : List String) (k : Nat) (m : Metric),
      m ∈ buildMetrics values ts hostname chart_id agg k dims →
      ∃ fv, ("value", fv) ∈ m ∧ fv.isFloatVal = true
  | [], _, m => by simp [buildMetrics]
  | d :: ds, k, m => by
    rw [buildMetrics]
    cases hdr : dimRecord values ts hostname chart_id agg k d with
    | none => exact buildMetrics_value values ts hostname chart_id agg ds (k + 1) m
    | some m0 =>
      intro hm
      rcases List.mem_cons.mp hm with rfl | hm2
      · obtain ⟨v, fv, _, _, hfv, rfl⟩ :=
          dimRecord_some values ts hostname chart_id agg k d m hdr
        exact ⟨fv, by simp [mkMetric], pyFloat_isFloatVal v fv hfv⟩
      · exact buildMetrics_value values ts hostname chart_id agg ds (k + 1) m hm2

/- Claim C2 -/

/-- C2 counterexample: a payload whose dimension value is the string inf
is float-coercible in Python, so the normalizer emits one record — and
its value is the non-finite float infinity, refuting the invariant that
every emitted record's value is finite. -/
theorem c2_counterexample :
    parse_chart_response infPayload "web1" "system.cpu" "average" 0 =
      [mkMetric (PyVal.pnum 1700000000) "web1" "system.cpu" "d1" PyVal.pinf "average"] ∧
    List.lookup "value"
        (mkMetric (PyVal.pnum 1700000000) "web1" "system.cpu" "d1" PyVal.pinf "average") =
      some PyVal.pinf ∧
    PyVal.pinf.isFiniteFloat = false := by
  refine ⟨by decide, by decide, rfl⟩

/-- C2 amended: the normalizer emits at most one record per dimension;
exactly one record per dimension index whose value is present, non-null
and float()-coercible (including underscore-grouped digit strings and the
inf/infinity/nan spellings), and none otherwise — null and non-coercible
values yield no record and are never coerced to zero; every emitted
record's value is a float, though not necessarily finite: an infinite or
nan source value is carried through as such. -/
theorem c2_normalizer (p : RawChartPayload) (hostname chart_id aggregation_type : String)
    (now : Int) :
    (parse_chart_response p hostname chart_id aggregation_type now).length ≤
        (p.labels.drop 1).length ∧
    (∀ m ∈ parse_chart_response p hostname chart_id aggregation_type now,
        ∃ fv, ("value", fv) ∈ m ∧ fv.isFloatVal = true) ∧
    (2 ≤ p.labels.length → p.data ≠ [] → 1 < (p.data.headD []).length →
      (parse_chart_response p hostname chart_id aggregation_type now).length =
        ((List.range (p.labels.drop 1).length).filter
          (fun i => goodDimAt ((p.data.headD []).drop 1) i)).length) := by
  by_cases h1 : p.labels = [] ∨ p.data = []
  · have hparse : parse_chart_response p hostname chart_id aggregation_type now = [] := by
      unfold parse_chart_response
      rw [if_pos h1]
    rw [hparse]
    refine ⟨by simp, by simp, ?_⟩
    intro hl hd _
    rcases h1 with h | h
    · rw [h] at hl; simp at hl
    · exact absurd h hd
  · by_cases h2 : p.labels.length < 2
    · have hparse : parse_chart_response p hostname chart_id aggregation_type now = [] := by
        unfold parse_chart_response
        rw [if_neg h1, if_pos h2]
      rw [hparse]
      exact ⟨by simp, by simp, fun hl _ _ => by omega⟩
    · by_cases h3 : 1 < (p.data.headD []).length
      · have hparse : parse_chart_response p hostname chart_id aggregation_type now =
            buildMetrics ((p.data.headD []).drop 1)
              ((p.data.headD []).headD (PyVal.pnum (now : Rat)))
              hostname chart_id aggregation_type 0 (p.labels.drop 1) := by
          unfold parse_chart_response
          rw [if_neg h1, if_neg h2]
          exact if_pos h3
        rw [hparse]
        refine ⟨?_, ?_, ?_⟩
        · rw [buildMetrics_length]
          exact le_trans (List.length_filter_le _ _) (le_of_eq (List.length_range _))
        · intro m hm
          exact buildMetrics_value _ _ _ _ _ _ 0 m hm
        · intro _ _ _
          rw [buildMetrics_length]
          simp
      · have hparse : parse_chart_response p hostname chart_id aggregation_type now = [] := by
          unfold parse_chart_response
          rw [if_neg h1, if_neg h2]
          exact if_neg h3
        rw [hparse]
        exact ⟨by simp, by simp, fun _ _ hrow => absurd hrow h3⟩

/-- C2 witnessed at a payload mixing numeric, null and non-numeric values:
exactly the good dimensions produce records. -/
theorem c2_normalizer_witness :
    (parse_chart_response mixedPayload "web1" "system.cpu" "average" 0).length =
      ((List.range (mixedPayload.labels.drop 1).length).filter
        (fun i => goodDimAt ((mixedPayload.data.headD []).drop 1) i)).length :=
  (c2_normalizer mixedPayload "web1" "system.cpu" "average" 0).2.2
    (by decide) (by decide) (by decide)

/- Helper lemmas for the volume-label deriver -/

/-- The head surviving dropWhile does not satisfy the dropped predicate. -/
theorem dropWhile_head_ne (p : Char → Bool) :
    ∀ (l : List Char) (c : Char), (l.dropWhile p).head? = some c → p c = false
  | [], c => by simp [List.dropWhile]
  | a :: t, c => by
    rw [List.dropWhile_cons]
    by_cases hpa : p a = true
    · rw [if_pos hpa]
      exact dropWhile_head_ne p t c
    · rw [if_neg hpa]
      intro h
      rw [List.head?_cons, Option.some.injEq] at h
      subst h
      exact Bool.eq_false_iff.mpr hpa

/-- Sanitized labels are non-empty and never start with a slash. -/
theorem sanitizeLabel_spec (s : String) :
    sanitizeLabel s ≠ "" ∧ (sanitizeLabel s).toList.head? ≠ some '/' := by
  simp only [sanitizeLabel]
  by_cases h1 : s = "/"
  · rw [if_pos h1]
    exact ⟨by decide, by decide⟩
  · rw [if_neg h1]
    by_cases h2 : (s.toList.dropWhile (fun c => c == '/')).asString = ""
    · rw [if_pos h2]
      exact ⟨by decide, by decide⟩
    · rw [if_neg h2]
      refine ⟨h2, ?_⟩
      intro hc
      have hc2 : (s.toList.dropWhile (fun c => c == '/')).head? = some '/' := hc
      have hfalse := dropWhile_head_ne (fun c => c == '/') s.toList '/' hc2
      simp at hfalse

/-- Derived labels are non-empty and never start with a slash. -/
theorem deriveVolumeLabel_spec (chartId : String) (metadata : List String) :
    deriveVolumeLabel chartId metadata ≠ "" ∧
    (deriveVolumeLabel chartId metadata).toList.head? ≠ some '/' :=
  sanitizeLabel_spec _

/-- A non-empty string with no leading slash, dot or underscore, and no
disk_space. marker, is a fixed point of candidate normalization. -/
theorem normalizeCandidate_fixed (y : String) (hyne : y ≠ "")
    (hslash : y.toList.head? ≠ some '/')
    (hdot : y.toList.head? ≠ some '.')
    (hunder : y.toList.head? ≠ some '_')
    (hstrip : stripDiskMarker y = y) :
    normalizeCandidate y = y := by
  simp only [normalizeCandidate]
  rw [hstrip]
  have hspec : ¬(y = "/" ∨ y = "./" ∨ y = "_" ∨ y = "._") := by
    rintro (rfl | rfl | rfl | rfl)
    · exact hslash (by decide)
    · exact hdot (by decide)
    · exact hunder (by decide)
    · exact hdot (by decide)
  rw [if_neg hspec]
  cases hl : y.toList with
  | nil =>
    exfalso
    apply hyne
    obtain ⟨d⟩ := y
    have hd : d = [] := hl
    subst hd
    rfl
  | cons c rest =>
    have hc1 : c ≠ '.' := fun h => hdot (by rw [hl, h]; rfl)
    have hc2 : c ≠ '/' := fun h => hslash (by rw [hl, h]; rfl)
    have hc3 : c ≠ '_' := fun h => hunder (by rw [hl, h]; rfl)
    split
    · next r heq => exact absurd (by injection heq) hc1
    · next heq => exact absurd (by injection heq) hc2
    · next r heq => exact absurd (by injection heq) hc3
    · next r heq => exact absurd (by injection heq) hc1
    · rfl

/-- A non-empty string with no leading slash is a fixed point of the final
sanitization. -/
theorem sanitizeLabel_fixed (y : String) (hyne : y ≠ "")
    (hslash : y.toList.head? ≠ some '/') : sanitizeLabel y = y := by
  simp only [sanitizeLabel]
  have h1 : y ≠ "/" := by
    intro h
    exact hslash (by rw [h]; rfl)
  rw [if_neg h1]
  cases hl : y.toList with
  | nil =>
    exfalso
    apply hyne
    obtain ⟨d⟩ := y
    have hd : d = [] := hl
    subst hd
    rfl
  | cons c rest =>
    have hc : ((fun c => c == '/') c) = false := by
      refine beq_eq_false_iff_ne.mpr ?_
      intro h
      exact hslash (by rw [hl, h]; rfl)
    have hdw : List.dropWhile (fun c => c == '/') (c :: rest) = y.toList := by
      rw [List.dropWhile_cons, if_neg (by simp [hc])]
      exact hl.symm
    have hy : y.toList.asString = y := rfl
    rw [hdw, hy, if_neg hyne]

/-- The deriver splits into the metadata candidates followed by the chart
identifier as the last resort. -/
theorem deriveVolumeLabel_expand (id : String) (metadata : List String) :
    deriveVolumeLabel id metadata =
      sanitizeLabel ((((metadata.map normalizeCandidate).filter (fun s => s != "")) ++
        (([normalizeCandidate id]).filter (fun s => s != ""))).headD "") := by
  simp only [deriveVolumeLabel]
  rw [List.map_append, List.filter_append]
  rfl

/-- A derived label whose text keeps no disk_space. marker and starts with
neither a dot nor an underscore is left unchanged by a second derivation
over the same metadata. -/
theorem deriveVolumeLabel_idem (chartId : String) (metadata : List String)
    (hstrip : stripDiskMarker (deriveVolumeLabel chartId metadata) =
      deriveVolumeLabel chartId metadata)
    (hdot : (deriveVolumeLabel chartId metadata).toList.head? ≠ some '.')
    (hunder : (deriveVolumeLabel chartId metadata).toList.head? ≠ some '_') :
    deriveVolumeLabel (deriveVolumeLabel chartId metadata) metadata =
      deriveVolumeLabel chartId metadata := by
  obtain ⟨hyne, hslash⟩ := deriveVolumeLabel_spec chartId metadata
  cases hw : (metadata.map normalizeCandidate).filter (fun s => s != "") with
  | nil =>
    have hnorm : normalizeCandidate (deriveVolumeLabel chartId metadata) =
        deriveVolumeLabel chartId metadata :=
      normalizeCandidate_fixed _ hyne hslash hdot hunder hstrip
    rw [deriveVolumeLabel_expand (deriveVolumeLabel chartId metadata) metadata, hw, hnorm]
    have hf : ([deriveVolumeLabel chartId metadata].filter (fun s => s != "")) =
        [deriveVolumeLabel chartId metadata] := by
      simp [hyne]
    rw [hf]
    simp only [List.nil_append, List.headD_cons]
    exact sanitizeLabel_fixed _ hyne hslash
  | cons w ws =>
    have h1 : deriveVolumeLabel chartId metadata = sanitizeLabel w := by
      rw [deriveVolumeLabel_expand chartId metadata, hw]
      simp only [List.cons_append, List.headD_cons]
    have h2 : deriveVolumeLabel (deriveVolumeLabel chartId metadata) metadata =
        sanitizeLabel w := by
      rw [deriveVolumeLabel_expand (deriveVolumeLabel chartId metadata) metadata, hw]
      simp only [List.cons_append, List.headD_cons]
    rw [h2]; exact h1.symm

/- Claim C9 -/

/-- C9 counterexample: the deriver is not idempotent — the identifier
disk_space.disk_space./ derives to disk_space./ (the marker is stripped
once), while a second application derives that to root. -/
theorem c9_counterexample :
    deriveVolumeLabel "disk_space.disk_space./" [] = "disk_space./" ∧
    deriveVolumeLabel (deriveVolumeLabel "disk_space.disk_space./" []) [] = "root" ∧
    deriveVolumeLabel (deriveVolumeLabel "disk_space.disk_space./" []) [] ≠
      deriveVolumeLabel "disk_space.disk_space./" [] := by
  refine ⟨by decide, by decide, by decide⟩

/-- C9 amended: the deriver is total and, for every chart identifier and
arbitrary (possibly empty) metadata, returns a non-empty string with no
leading slash; disk_space./ derives to root and disk_space./var/log to
var/log; it is idempotent on every input whose derived label keeps no
disk_space. marker and starts with neither a dot nor an underscore. -/
theorem c9_volume_label :
    (∀ chartId metadata, deriveVolumeLabel chartId metadata ≠ "" ∧
        (deriveVolumeLabel chartId metadata).toList.head? ≠ some '/') ∧
    deriveVolumeLabel "disk_space./" [] = "root" ∧
    deriveVolumeLabel "disk_space./var/log" [] = "var/log" ∧
    (∀ chartId metadata,
        stripDiskMarker (deriveVolumeLabel chartId metadata) =
          deriveVolumeLabel chartId metadata →
        (deriveVolumeLabel chartId metadata).toList.head? ≠ some '.' →
        (deriveVolumeLabel chartId metadata).toList.head? ≠ some '_' →
        deriveVolumeLabel (deriveVolumeLabel chartId metadata) metadata =
          deriveVolumeLabel chartId metadata) :=
  ⟨deriveVolumeLabel_spec, by decide, by decide, deriveVolumeLabel_idem⟩

/-- C9 amended, witnessed at disk_space./var/log whose label var/log is a
fixed point of the deriver. -/
theorem c9_volume_label_witness :
    deriveVolumeLabel (deriveVolumeLabel "disk_space./var/log" []) [] =
      deriveVolumeLabel "disk_space./var/log" [] :=
  c9_volume_label.2.2.2 "disk_space./var/log" [] (by decide) (by decide) (by decide)
